import Mathlib

/-!
Shallow embedding of `ci1d/datasetdefs.py` (0D and 1D univariate and
bivariate dataset classes) and verification of the specification claims.

Numeric arrays are modelled with exact rationals (`ℚ`): the sign tests,
negations, covariance sums and index arithmetic performed by the source
are exact arithmetic operations, so the rational model reproduces them
faithfully.  The one genuinely irrational operation, `numpy`'s square
root inside `std`, is modelled with `Real.sqrt` on top of the exact
radicand.  The external decomposition routine `np.linalg.svd` is not
part of the repository; it is modelled as an explicit oracle parameter
`svd : Mat → Mat × Vec × Mat`, so every theorem quantifies over what the
routine may return (the spec itself demands the invariants hold "even
when the underlying decomposition routine returns a negatively-oriented
axis").  Failures (`IndexError`, `ValueError`) are modelled with
`Except PyErr`.
-/

namespace Ci1d

/-- Python exception classes that the embedded code can raise. -/
inductive PyErr where
  | valueError : PyErr
  | indexError : PyErr
deriving DecidableEq

instance {ε α : Type} [DecidableEq ε] [DecidableEq α] : DecidableEq (Except ε α) :=
  fun a b =>
    match a, b with
    | .ok x, .ok y =>
      if h : x = y then isTrue (by rw [h]) else isFalse (fun hh => h (Except.ok.inj hh))
    | .error e, .error f =>
      if h : e = f then isTrue (by rw [h]) else isFalse (fun hh => h (Except.error.inj hh))
    | .ok _, .error _ => isFalse (fun hh => Except.noConfusion hh)
    | .error _, .ok _ => isFalse (fun hh => Except.noConfusion hh)

/-- A 1-D numeric array. -/
abbrev Vec := List ℚ

/-- A 2-D numeric array, row major. -/
abbrev Mat := List Vec

/-- A 3-D numeric array (observations × nodes × components). -/
abbrev Arr3 := List Mat

/-- An arbitrary-rank nested numeric array, as accepted by `np.asarray`. -/
inductive Arr where
  | scalar : ℚ → Arr
  | arr : List Arr → Arr

/-- `np.shape`: the shape tuple of a (rectangular) nested array. -/
def npShape : Arr → List ℕ
  | .scalar _ => []
  | .arr [] => [0]
  | .arr (x :: xs) => (xs.length + 1) :: npShape x

/-- Python tuple subscription `shape[k]`: raises `IndexError` when the
tuple is too short (e.g. `shape[1]` of a 1-D array). -/
def shapeGet (sh : List ℕ) (k : ℕ) : Except PyErr ℕ :=
  match sh.get? k with
  | some n => .ok n
  | none => .error .indexError

/-- `np.dot` of two 1-D arrays: raises `ValueError` when the shapes are
not aligned. -/
def npDot (a b : Vec) : Except PyErr ℚ :=
  if a.length = b.length then .ok (List.zipWith (· * ·) a b).sum
  else .error .valueError

/-- Column `k` of a 2-D array (`m[:, k]`). -/
def colv (m : Mat) (k : ℕ) : Vec := m.map (fun r => r.getD k 0)

/-- In-place negation `m *= -1` of a 2-D array (the resulting value). -/
def negMat (m : Mat) : Mat := m.map (fun r => r.map (fun v => -v))

/-- Mean of column `k` of a 2-D array (part of `y.mean(axis=0)`). -/
def colMean (y : Mat) (k : ℕ) : ℚ := (colv y k).sum / (y.length : ℚ)

/-- Sum of squared deviations from the mean in column `k`; the common
numerator of the biased and unbiased variance estimators. -/
def ssdCol (y : Mat) (k : ℕ) : ℚ :=
  ((colv y k).map (fun v => (v - colMean y k) ^ 2)).sum

/-- The radicand of `y.std(axis=0, ddof=1)` for column `k`:
sum of squared deviations divided by `N - ddof` with `ddof = 1`. -/
def varDdof1 (y : Mat) (k : ℕ) : ℚ := ssdCol y k / ((y.length : ℚ) - 1)

/-- `y.std(axis=0, ddof=1)` for column `k` (`_Dataset.std`). -/
noncomputable def npStdCol (y : Mat) (k : ℕ) : ℝ := Real.sqrt ((varDdof1 y k : ℚ) : ℝ)

/-- Entry `(a, b)` of `np.cov(y.T, ...)` with denominator `N`. -/
def covEntry (y : Mat) (a b : ℕ) (N : ℚ) : ℚ :=
  ((y.map (fun r => (r.getD a 0 - colMean y a) * (r.getD b 0 - colMean y b))).sum) / N

/-- `np.cov(y.T, bias=bias)` for a 2-D array `y` whose rows are
observations: an `I × I` matrix (`I` = number of columns of `y`), with
denominator `N` when `bias` is set and `N - 1` otherwise. -/
def npCov (y : Mat) (bias : Bool) : Mat :=
  (List.range (y.headD []).length).map (fun a =>
    (List.range (y.headD []).length).map (fun b =>
      covEntry y a b (if bias then (y.length : ℚ) else (y.length : ℚ) - 1)))

/-- `np.arange(n)` as a rational vector. -/
def npArange (n : ℕ) : Vec := (List.range n).map (fun i => (i : ℚ))

/-- Minimum of column `k` (part of `y.min(axis=0)`); `numpy` requires a
nonempty axis, so the empty case is irrelevant. -/
def colMin (y : Mat) (k : ℕ) : ℚ :=
  match colv y k with
  | [] => 0
  | a :: t => t.foldl min a

/-- Maximum of column `k` (part of `y.max(axis=0)`). -/
def colMax (y : Mat) (k : ℕ) : ℚ :=
  match colv y k with
  | [] => 0
  | a :: t => t.foldl max a

/-- `y.mean(axis=0)` of a 2-D array: the vector of column means. -/
def npMeanAxis0 (y : Mat) : Vec :=
  (List.range (y.headD []).length).map (colMean y)

/-- `y.std(axis=0, ddof=1)` of a 2-D array. -/
noncomputable def npStdAxis0 (y : Mat) : List ℝ :=
  (List.range (y.headD []).length).map (npStdCol y)

/-- `(y.min(axis=0), y.max(axis=0))` of a 2-D array (`_Dataset.range`). -/
def npRangeAxis0 (y : Mat) : Vec × Vec :=
  ((List.range (y.headD []).length).map (colMin y),
   (List.range (y.headD []).length).map (colMax y))

/-- The vector `y[:, q, i]` of a 3-D array: one component at one node
across all observations. -/
def col3 (y : Arr3) (q i : ℕ) : Vec := y.map (fun obs => (obs.getD q []).getD i 0)

/-- `y.mean(axis=0)` of a 3-D array: a `Q × I` matrix of means. -/
def npMean3 (y : Arr3) : Mat :=
  (List.range (y.headD []).length).map (fun q =>
    (List.range ((y.headD []).headD []).length).map (fun i =>
      (col3 y q i).sum / (y.length : ℚ)))

/-- `y.std(axis=0, ddof=1)` of a 3-D array. -/
noncomputable def npStd3 (y : Arr3) : List (List ℝ) :=
  (List.range (y.headD []).length).map (fun q =>
    (List.range ((y.headD []).headD []).length).map (fun i =>
      Real.sqrt ((((col3 y q i).map
        (fun v => (v - (col3 y q i).sum / (y.length : ℚ)) ^ 2)).sum
          / ((y.length : ℚ) - 1) : ℚ) : ℝ)))

/-- `(y.min(axis=0), y.max(axis=0))` of a 3-D array. -/
def npRange3 (y : Arr3) : Mat × Mat :=
  ((List.range (y.headD []).length).map (fun q =>
      (List.range ((y.headD []).headD []).length).map (fun i =>
        match col3 y q i with
        | [] => 0
        | a :: t => t.foldl min a)),
   (List.range (y.headD []).length).map (fun q =>
      (List.range ((y.headD []).headD []).length).map (fun i =>
        match col3 y q i with
        | [] => 0
        | a :: t => t.foldl max a)))

/-- Slice `y[:, q, :]` of a 3-D array: the observations × components
matrix at continuum node `q`. -/
def sliceNode (y : Arr3) (q : ℕ) : Mat := y.map (fun obs => obs.getD q [])

/-- The list comprehension of `BivariateDataset1D.get_cov`:
`[np.cov(y[:, i, :].T, bias=bias) for i in range(Q)]`. -/
def covList (y : Arr3) (Q : ℕ) (bias : Bool) : List Mat :=
  (List.range Q).map (fun i => npCov (sliceNode y i) bias)

/-- `numpy` integer indexing along an axis of extent `n`: indices in
`[0, n)` are used as is, indices in `[-n, 0)` wrap around to `n + i`,
anything else raises `IndexError`. -/
def npIndex (n : ℕ) (i : ℤ) : Except PyErr ℕ :=
  if 0 ≤ i ∧ i < (n : ℤ) then .ok i.toNat
  else if -(n : ℤ) ≤ i ∧ i < 0 then .ok (i + (n : ℤ)).toNat
  else .error .indexError

/-- `_Dataset1D._getx`: `np.arange(Q) if (x is None) else x`. -/
def getx (Q : ℕ) (x : Option Vec) : Vec :=
  match x with
  | none => npArange Q
  | some v => v

/-- The sign-correction step shared by `_BivariateDataset._init_svd` and
the per-node loop of `BivariateDataset1D._init_svd`: given the triple
`(u, s, r)` returned by `np.linalg.svd`, negate `u` and `r` wholesale
when `np.dot(u[:, 0], [0, 1]) < 0`.  The `np.dot` call raises
`ValueError` when `u` does not have exactly two rows. -/
def orientStep (uvs : Mat × Vec × Mat) : Except PyErr (Mat × Vec × Mat) :=
  match npDot (colv uvs.1 0) [0, 1] with
  | .error e => .error e
  | .ok d =>
    if d < 0 then .ok (negMat uvs.1, uvs.2.1, negMat uvs.2.2) else .ok uvs

/-- `_BivariateDataset` state after a successful `__init__`:
the backing array, `J = y.shape[0]`, `I = y.shape[1]`, and the cached
decomposition `_U`, `_s`, `_R`. -/
structure BivariateDataset0D where
  y : Mat
  J : ℕ
  I : ℕ
  U : Mat
  s : Vec
  R : Mat
deriving DecidableEq

/-- `_BivariateDataset.__init__` followed by `_init_svd`, parametrised
by the external `np.linalg.svd` routine.  The covariance passed to the
decomposition is `self.cov = self.get_cov(bias=1)`. -/
def mkBivariateDataset0D (svd : Mat → Mat × Vec × Mat) (y : Mat) :
    Except PyErr BivariateDataset0D :=
  match orientStep (svd (npCov y true)) with
  | .error e => .error e
  | .ok (U, s, R) => .ok ⟨y, y.length, (y.headD []).length, U, s, R⟩

namespace BivariateDataset0D

/-- `_Dataset.mean`: `y.mean(axis=0)`. -/
def mean (d : BivariateDataset0D) : Vec := npMeanAxis0 d.y

/-- `_Dataset.std`: `y.std(axis=0, ddof=1)`. -/
noncomputable def std (d : BivariateDataset0D) : List ℝ := npStdAxis0 d.y

/-- `_Dataset.range`: `(y.min(axis=0), y.max(axis=0))`. -/
def range (d : BivariateDataset0D) : Vec × Vec := npRangeAxis0 d.y

/-- `_Dataset.nobservations`. -/
def nobservations (d : BivariateDataset0D) : ℕ := d.J

/-- `_Dataset.samplesize`. -/
def samplesize (d : BivariateDataset0D) : ℕ := d.J

/-- `_BivariateDataset.ncomponents` (the source returns `self.J`). -/
def ncomponents (d : BivariateDataset0D) : ℕ := d.J

/-- `_BivariateDataset.Maxis`: `self._U[:, 0]`. -/
def Maxis (d : BivariateDataset0D) : Vec := colv d.U 0

/-- `_BivariateDataset.maxis`: `self._U[:, 1]`. -/
def maxis (d : BivariateDataset0D) : Vec := colv d.U 1

/-- `_BivariateDataset.get_cov`: `np.cov(y.T, bias=bias)`, biased by
default. -/
def get_cov (d : BivariateDataset0D) (bias : Bool := true) : Mat := npCov d.y bias

/-- `_BivariateDataset.toarray`, value level: `self.y.copy()` has the
contents of `self.y` (aliasing is treated in the store model below). -/
def toarray (d : BivariateDataset0D) : Mat := d.y

end BivariateDataset0D

/-- `BivariateDataset1D` state after a successful `__init__`:
`J = y.shape[0]`, `Q = y.shape[1]`, `I = y.shape[2]`, and the per-node
stacks `_U`, `_s`, `_R`. -/
structure BivariateDataset1D where
  y : Arr3
  J : ℕ
  Q : ℕ
  I : ℕ
  U : List Mat
  s : List Vec
  R : List Mat
deriving DecidableEq

/-- The accumulation loop of `BivariateDataset1D._init_svd`: for each
per-node covariance `w`, decompose with the external routine, apply the
sign correction and append; a failure at any node aborts construction. -/
def initSvd1D (svd : Mat → Mat × Vec × Mat) : List Mat → Except PyErr (List (Mat × Vec × Mat))
  | [] => .ok []
  | w :: ws =>
    match orientStep (svd w), initSvd1D svd ws with
    | .error e, _ => .error e
    | .ok _, .error e => .error e
    | .ok out, .ok outs => .ok (out :: outs)

/-- `BivariateDataset1D.__init__` followed by its `_init_svd`,
parametrised by the external `np.linalg.svd` routine. -/
def mkBivariateDataset1D (svd : Mat → Mat × Vec × Mat) (y : Arr3) :
    Except PyErr BivariateDataset1D :=
  match initSvd1D svd (covList y (y.headD []).length true) with
  | .error e => .error e
  | .ok outs =>
    .ok ⟨y, y.length, (y.headD []).length, ((y.headD []).headD []).length,
      outs.map (fun t => t.1), outs.map (fun t => t.2.1), outs.map (fun t => t.2.2)⟩

namespace BivariateDataset1D

/-- `_Dataset.mean` on the 3-D backing array. -/
def mean (d : BivariateDataset1D) : Mat := npMean3 d.y

/-- `_Dataset.std` on the 3-D backing array. -/
noncomputable def std (d : BivariateDataset1D) : List (List ℝ) := npStd3 d.y

/-- `_Dataset.range` on the 3-D backing array. -/
def range (d : BivariateDataset1D) : Mat × Mat := npRange3 d.y

/-- `_Dataset.nobservations`. -/
def nobservations (d : BivariateDataset1D) : ℕ := d.J

/-- `_Dataset.samplesize`. -/
def samplesize (d : BivariateDataset1D) : ℕ := d.J

/-- `_BivariateDataset.ncomponents` (the source returns `self.J`). -/
def ncomponents (d : BivariateDataset1D) : ℕ := d.J

/-- `_Dataset1D.nnodes`. -/
def nnodes (d : BivariateDataset1D) : ℕ := d.Q

/-- `_BivariateDataset.Maxis` on the stacked `_U` of shape `(Q, 2, 2)`:
`self._U[:, 0]` selects index 0 along axis 1, i.e. row 0 of each
per-node matrix. -/
def Maxis (d : BivariateDataset1D) : Mat := d.U.map (fun m => m.headD [])

/-- `_BivariateDataset.maxis` on the stacked `_U`: `self._U[:, 1]`. -/
def maxis (d : BivariateDataset1D) : Mat := d.U.map (fun m => m.getD 1 [])

/-- `BivariateDataset1D.get_cov`: one biased covariance matrix per
node, biased by default. -/
def get_cov (d : BivariateDataset1D) (bias : Bool := true) : List Mat :=
  covList d.y d.Q bias

/-- `BivariateDataset1D.get_frame`:
`BivariateDataset0D(self.y[:, frame, :])`, with `numpy`'s integer
indexing rules along the node axis. -/
def get_frame (svd : Mat → Mat × Vec × Mat) (d : BivariateDataset1D) (frame : ℤ) :
    Except PyErr BivariateDataset0D :=
  match npIndex d.Q frame with
  | .error e => .error e
  | .ok q => mkBivariateDataset0D svd (sliceNode d.y q)

end BivariateDataset1D

/-- `UnivariateDataset1D` state after a successful `__init__`. -/
structure UnivariateDataset1D where
  y : Arr
  J : ℕ
  Q : ℕ

/-- `UnivariateDataset1D.__init__`: reads `y.shape[0]` and `y.shape[1]`;
the latter raises `IndexError` on a 1-D input array. -/
def mkUnivariateDataset1D (y : Arr) : Except PyErr UnivariateDataset1D :=
  match shapeGet (npShape y) 0 with
  | .error e => .error e
  | .ok J =>
    match shapeGet (npShape y) 1 with
    | .error e => .error e
    | .ok Q => .ok ⟨y, J, Q⟩

/-! ### Well-formed 3-D data -/

/-- A well-formed backing array for `BivariateDataset1D`: nonempty, every
observation has the common node count, every node entry has 2 components
(`np.asarray` only produces such rectangular numeric arrays). -/
def WF3 (y : Arr3) : Prop :=
  y ≠ [] ∧ ∀ obs ∈ y, obs.length = (y.headD []).length ∧ ∀ nd ∈ obs, nd.length = 2

instance (y : Arr3) : Decidable (WF3 y) := by
  unfold WF3
  infer_instance

/-! ### Eigendecomposition predicates (the guarantee `np.linalg.svd`
provides for a symmetric PSD input, as formulated by the spec) -/

/-- `v` is a unit eigenvector of `M` with eigenvalue `lam`. -/
def IsUnitEig (M : Mat) (lam : ℚ) (v : Vec) : Prop :=
  M.map (fun row => (List.zipWith (· * ·) row v).sum) = v.map (fun x => lam * x) ∧
  (List.zipWith (· * ·) v v).sum = 1

/-- The triple `(U, s, R)` is an eigendecomposition of the 2×2 matrix
`M`: `s` is weakly descending and the two columns of `U` are unit
eigenvectors of `M` for the corresponding entries of `s` (major axis
first). -/
def EigDecomp (M : Mat) (uvs : Mat × Vec × Mat) : Prop :=
  List.Chain' (fun a b => b ≤ a) uvs.2.1 ∧
  IsUnitEig M (uvs.2.1.getD 0 0) (colv uvs.1 0) ∧
  IsUnitEig M (uvs.2.1.getD 1 0) (colv uvs.1 1)

instance (M : Mat) (lam : ℚ) (v : Vec) : Decidable (IsUnitEig M lam v) := by
  unfold IsUnitEig
  infer_instance

instance (M : Mat) (uvs : Mat × Vec × Mat) : Decidable (EigDecomp M uvs) := by
  unfold EigDecomp
  infer_instance

/-! ### Store model for `toarray` (aliasing behaviour of `self.y.copy()`) -/

namespace Mem

/-- A heap of arrays; a dataset's backing array is a cell in the store. -/
abbrev Store := List Mat

/-- Read the array stored in cell `i`. -/
def readArr (st : Store) (i : ℕ) : Mat := st.getD i []

/-- `toarray`: `self.y.copy()` allocates a fresh cell holding a copy of
the contents of cell `i` and returns its address. -/
def toarray (st : Store) (i : ℕ) : Store × ℕ := (st ++ [readArr st i], st.length)

/-- An in-place mutation of the array in cell `i` (something a caller
may do to the array returned by `toarray`). -/
def writeArr (st : Store) (i : ℕ) (m : Mat) : Store := st.set i m

/-- The `cov` query as a store transaction: reads cell `i`, writes
nothing. -/
def queryCov (st : Store) (i : ℕ) : Store × Mat := (st, npCov (readArr st i) true)

/-- The `mean` query as a store transaction: reads cell `i`, writes
nothing. -/
def queryMean (st : Store) (i : ℕ) : Store × Vec := (st, npMeanAxis0 (readArr st i))

end Mem

/-! ### Concrete data used to instantiate the theorems -/

/-- A concrete stand-in for `np.linalg.svd` that always returns the
identity decomposition; used only to instantiate oracle-parametric
theorems on concrete inputs. -/
def svdC : Mat → Mat × Vec × Mat := fun _ => ([[1, 0], [0, 1]], [1, 0], [[1, 0], [0, 1]])

/-- A concrete stand-in for `np.linalg.svd` returning a plausible
decomposition (identity) whose dimensions always match the input. -/
def svdSame : Mat → Mat × Vec × Mat := fun m => (m, [], m)

/-- A concrete stand-in for `np.linalg.svd` that returns a genuine
eigendecomposition for the two covariance matrices arising from the
concrete data below. -/
def svdE : Mat → Mat × Vec × Mat := fun w =>
  if w = [[0, 0], [0, 4]] then ([[0, 1], [1, 0]], [4, 0], [[0, 1], [1, 0]])
  else ([[1, 0], [0, 1]], [1, 0], [[1, 0], [0, 1]])

/-- A concrete stand-in for `np.linalg.svd` that returns a
negatively-oriented major axis (second component `-1 < 0`), exercising
the sign-flip branch of the orientation correction. -/
def svdN : Mat → Mat × Vec × Mat := fun _ => ([[0, 1], [-1, 0]], [1, 0], [[0, -1], [1, 0]])

/-- Two bivariate observations. -/
def y2c : Mat := [[1, 0], [-1, 0]]

/-- Three bivariate observations. -/
def y0w : Mat := [[1, 0], [-1, 0], [0, 0]]

/-- Two observations of a 3-column array (an invalid bivariate input). -/
def y33 : Mat := [[1, 2, 3], [4, 5, 6]]

/-- Two bivariate functional observations over two continuum nodes. -/
def y3c : Arr3 := [[[1, 0], [0, 2]], [[-1, 0], [0, -2]]]

/-- The 2×2 identity matrix. -/
def id2 : Mat := [[1, 0], [0, 1]]

/-- The dataset produced by `mkBivariateDataset0D svdC y2c`. -/
def d0c : BivariateDataset0D := ⟨y2c, 2, 2, [[1, 0], [0, 1]], [1, 0], [[1, 0], [0, 1]]⟩

/-- The dataset produced by `mkBivariateDataset0D svdC y0w`. -/
def d0w : BivariateDataset0D := ⟨y0w, 3, 2, [[1, 0], [0, 1]], [1, 0], [[1, 0], [0, 1]]⟩

/-- The dataset produced by `mkBivariateDataset1D svdC y3c`. -/
def d1c : BivariateDataset1D := ⟨y3c, 2, 2, 2, [id2, id2], [[1, 0], [1, 0]], [id2, id2]⟩

/-- The dataset produced by `mkBivariateDataset1D svdE y3c`. -/
def d1e : BivariateDataset1D :=
  ⟨y3c, 2, 2, 2, [id2, [[0, 1], [1, 0]]], [[1, 0], [4, 0]], [id2, [[0, 1], [1, 0]]]⟩

/-- The dataset produced by `mkBivariateDataset0D svdN y2c` (the
orientation correction fires and stores the negated matrices). -/
def d0n : BivariateDataset0D := ⟨y2c, 2, 2, [[0, -1], [1, 0]], [1, 0], [[0, 1], [-1, 0]]⟩

/-- The dataset produced by `mkBivariateDataset1D svdN y3c` (the
orientation correction fires at every node). -/
def d1n : BivariateDataset1D :=
  ⟨y3c, 2, 2, 2, [[[0, -1], [1, 0]], [[0, -1], [1, 0]]], [[1, 0], [1, 0]],
    [[[0, 1], [-1, 0]], [[0, 1], [-1, 0]]]⟩

/-! ### Basic lemmas about the numpy primitives -/

lemma colv_length (m : Mat) (k : ℕ) : (colv m k).length = m.length := by
  simp [colv]

lemma npCov_length (y : Mat) (b : Bool) : (npCov y b).length = (y.headD []).length := by
  simp [npCov]

lemma getD_range_map {α : Type} (f : ℕ → α) {n k : ℕ} (hk : k < n) (dflt : α) :
    ((List.range n).map f).getD k dflt = f k := by
  rw [List.getD_eq_getElem?_getD, List.getElem?_map, List.getElem?_range hk]
  rfl

lemma getD_map_lt {α β : Type} (f : α → β) {l : List α} {k : ℕ} (hk : k < l.length)
    (d : α) (d' : β) : (l.map f).getD k d' = f (l.getD k d) := by
  rw [List.getD_eq_getElem?_getD, List.getElem?_map, List.getD_eq_getElem _ _ hk,
    List.getElem?_eq_getElem hk]
  rfl

lemma getD_map_neg (r : Vec) (k : ℕ) : (r.map (fun x => -x)).getD k 0 = -(r.getD k 0) := by
  induction r generalizing k with
  | nil => simp
  | cons a t ih =>
    cases k with
    | zero => simp
    | succ k => simpa using ih k

lemma colv_negMat (m : Mat) (k : ℕ) : colv (negMat m) k = (colv m k).map (fun x => -x) := by
  induction m with
  | nil => rfl
  | cons r t ih =>
    simp only [colv, negMat, List.map_cons] at ih ⊢
    rw [getD_map_neg]
    exact congrArg _ ih

lemma sum_zipWith_neg_left (a b : Vec) :
    (List.zipWith (· * ·) (a.map (fun x => -x)) b).sum =
      -(List.zipWith (· * ·) a b).sum := by
  induction a generalizing b with
  | nil => simp
  | cons x t ih =>
    cases b with
    | nil => simp
    | cons y u =>
      simp only [List.map_cons, List.zipWith_cons_cons, List.sum_cons, ih]
      ring

lemma npDot_neg_left (a b : Vec) (v : ℚ) (h : npDot a b = .ok v) :
    npDot (a.map (fun x => -x)) b = .ok (-v) := by
  by_cases hl : a.length = b.length
  · simp only [npDot, if_pos hl] at h
    injection h with h
    simp only [npDot, List.length_map, if_pos hl, sum_zipWith_neg_left, h]
  · simp [npDot, hl] at h

/-! ### The orientation-correction step -/

lemma orientStep_ok {uvs out : Mat × Vec × Mat} (h : orientStep uvs = .ok out) :
    out.2.1 = uvs.2.1 ∧ ∃ v, npDot (colv uvs.1 0) [0, 1] = .ok v ∧
      ((v < 0 → out.1 = negMat uvs.1 ∧ out.2.2 = negMat uvs.2.2) ∧
       (0 ≤ v → out.1 = uvs.1 ∧ out.2.2 = uvs.2.2)) := by
  obtain ⟨u, s, r⟩ := uvs
  simp only [orientStep] at h
  split at h
  · exact Except.noConfusion h
  · rename_i v h'
    by_cases hv : v < 0
    · rw [if_pos hv] at h
      injection h with h
      subst h
      exact ⟨rfl, v, h', fun _ => ⟨rfl, rfl⟩, fun hge => absurd hv (not_lt.mpr hge)⟩
    · rw [if_neg hv] at h
      injection h with h
      subst h
      exact ⟨rfl, v, h', fun hlt => absurd hlt hv, fun _ => ⟨rfl, rfl⟩⟩

lemma orientStep_nonneg {uvs out : Mat × Vec × Mat} (h : orientStep uvs = .ok out) :
    ∃ v, npDot (colv out.1 0) [0, 1] = .ok v ∧ 0 ≤ v := by
  obtain ⟨-, v, hdot, hflip, hkeep⟩ := orientStep_ok h
  by_cases hv : v < 0
  · obtain ⟨hU, -⟩ := hflip hv
    refine ⟨-v, ?_, by linarith⟩
    rw [hU, colv_negMat]
    exact npDot_neg_left _ _ _ hdot
  · obtain ⟨hU, -⟩ := hkeep (not_lt.mp hv)
    exact ⟨v, hU ▸ hdot, not_lt.mp hv⟩

lemma orientStep_isOk (uvs : Mat × Vec × Mat) :
    (orientStep uvs).isOk = true ↔ uvs.1.length = 2 := by
  by_cases hl : uvs.1.length = 2
  · have hdot : npDot (colv uvs.1 0) [0, 1] =
        .ok (List.zipWith (· * ·) (colv uvs.1 0) [0, 1]).sum := by
      simp [npDot, colv_length, hl]
    simp only [orientStep, hdot]
    constructor
    · intro _; exact hl
    · intro _
      split <;> rfl
  · have hdot : npDot (colv uvs.1 0) [0, 1] = .error .valueError := by
      simp [npDot, colv_length, hl]
    simp only [orientStep, hdot]
    simp [Except.isOk, Except.toBool, hl]

/-! ### Construction lemmas -/

lemma mk0_ok {svd : Mat → Mat × Vec × Mat} {y : Mat} {d : BivariateDataset0D}
    (h : mkBivariateDataset0D svd y = .ok d) :
    d.y = y ∧ d.J = y.length ∧ d.I = (y.headD []).length ∧
      orientStep (svd (npCov y true)) = .ok (d.U, d.s, d.R) := by
  unfold mkBivariateDataset0D at h
  split at h
  · exact Except.noConfusion h
  · rename_i U s R h'
    injection h with h
    subst h
    exact ⟨rfl, rfl, rfl, h'⟩

lemma mk0_isOk (svd : Mat → Mat × Vec × Mat) (y : Mat) :
    (mkBivariateDataset0D svd y).isOk = (orientStep (svd (npCov y true))).isOk := by
  unfold mkBivariateDataset0D
  split <;> rename_i h' <;> rw [h'] <;> rfl

lemma initSvd1D_ok {svd : Mat → Mat × Vec × Mat} {Ws : List Mat}
    {outs : List (Mat × Vec × Mat)} (h : initSvd1D svd Ws = .ok outs) :
    outs.length = Ws.length ∧
      ∀ q, q < Ws.length →
        orientStep (svd (Ws.getD q [])) = .ok (outs.getD q ([], [], [])) := by
  induction Ws generalizing outs with
  | nil =>
    unfold initSvd1D at h
    injection h with h
    subst h
    exact ⟨rfl, fun q hq => absurd hq (Nat.not_lt_zero q)⟩
  | cons w ws ih =>
    unfold initSvd1D at h
    split at h
    · exact Except.noConfusion h
    · exact Except.noConfusion h
    · rename_i out outs' h1 h2
      injection h with h
      subst h
      obtain ⟨hlen, hpt⟩ := ih h2
      refine ⟨by simp [hlen], fun q hq => ?_⟩
      cases q with
      | zero => simpa using h1
      | succ q => simpa using hpt q (by simpa using hq)

lemma mk1_ok {svd : Mat → Mat × Vec × Mat} {y : Arr3} {d : BivariateDataset1D}
    (h : mkBivariateDataset1D svd y = .ok d) :
    d.y = y ∧ d.J = y.length ∧ d.Q = (y.headD []).length ∧
      ∃ outs, initSvd1D svd (covList y (y.headD []).length true) = .ok outs ∧
        d.U = outs.map (fun t => t.1) ∧ d.s = outs.map (fun t => t.2.1) ∧
        d.R = outs.map (fun t => t.2.2) := by
  unfold mkBivariateDataset1D at h
  split at h
  · exact Except.noConfusion h
  · rename_i outs h'
    injection h with h
    subst h
    exact ⟨rfl, rfl, rfl, outs, h', rfl, rfl, rfl⟩

lemma mk1_node {svd : Mat → Mat × Vec × Mat} {y : Arr3} {d : BivariateDataset1D}
    (h : mkBivariateDataset1D svd y = .ok d) {q : ℕ} (hq : q < d.Q) :
    orientStep (svd (npCov (sliceNode y q) true)) =
      .ok (d.U.getD q [], d.s.getD q [], d.R.getD q []) := by
  obtain ⟨-, -, hQ, outs, hinit, hU, hs, hR⟩ := mk1_ok h
  have hqQ : q < (y.headD []).length := hQ ▸ hq
  obtain ⟨hlen, hpt⟩ := initSvd1D_ok hinit
  have hcl : (covList y (y.headD []).length true).length = (y.headD []).length := by
    simp [covList]
  have hq' : q < (covList y (y.headD []).length true).length := by rw [hcl]; exact hqQ
  have hq2 : q < outs.length := by rw [hlen]; exact hq'
  have hW : (covList y (y.headD []).length true).getD q [] = npCov (sliceNode y q) true := by
    simp only [covList]
    exact getD_range_map _ hqQ _
  have hstep := hpt q hq'
  rw [hW] at hstep
  rw [hU, hs, hR, getD_map_lt (fun t => t.1) hq2 ([], [], []) [],
    getD_map_lt (fun t => t.2.1) hq2 ([], [], []) [],
    getD_map_lt (fun t => t.2.2) hq2 ([], [], []) []]
  exact hstep.trans (by simp)

/-! ### numpy indexing lemmas -/

lemma npIndex_isOk (n : ℕ) (i : ℤ) :
    (npIndex n i).isOk = true ↔ (-(n : ℤ) ≤ i ∧ i < (n : ℤ)) := by
  unfold npIndex
  by_cases h1 : 0 ≤ i ∧ i < (n : ℤ)
  · rw [if_pos h1]
    constructor
    · intro _; omega
    · intro _; rfl
  · rw [if_neg h1]
    by_cases h2 : -(n : ℤ) ≤ i ∧ i < 0
    · rw [if_pos h2]
      constructor
      · intro _; omega
      · intro _; rfl
    · rw [if_neg h2]
      constructor
      · intro hfalse
        simp [Except.isOk, Except.toBool] at hfalse
      · intro hrange
        omega

lemma npIndex_ok_lt {n : ℕ} {i : ℤ} {q : ℕ} (h : npIndex n i = .ok q) : q < n := by
  unfold npIndex at h
  split at h
  · rename_i h1
    injection h with h2
    omega
  · split at h
    · rename_i h1 h2
      injection h with h3
      omega
    · exact Except.noConfusion h

lemma npIndex_natCast {n q : ℕ} (hq : q < n) : npIndex n (q : ℤ) = .ok q := by
  unfold npIndex
  rw [if_pos (by omega)]
  simp

lemma npIndex_neg_wrap {n : ℕ} {i : ℤ} (h1 : -(n : ℤ) ≤ i) (h2 : i < 0) :
    npIndex n i = npIndex n (i + n) := by
  have l1 : npIndex n i = .ok (i + n).toNat := by
    unfold npIndex
    rw [if_neg (by omega), if_pos ⟨h1, h2⟩]
  have l2 : npIndex n (i + n) = .ok (i + n).toNat := by
    unfold npIndex
    rw [if_pos (by omega)]
  rw [l1, l2]

lemma sliceNode_head_len {y : Arr3} (hwf : WF3 y) {q : ℕ}
    (hq : q < (y.headD []).length) : ((sliceNode y q).headD []).length = 2 := by
  obtain ⟨hne, hobs⟩ := hwf
  cases y with
  | nil => exact absurd rfl hne
  | cons o t =>
    obtain ⟨hlen, hns⟩ := hobs o (by simp)
    have hq' : q < o.length := by simpa [hlen] using hq
    have hmem : o.getD q [] ∈ o := by
      rw [List.getD_eq_getElem _ _ hq']
      exact List.getElem_mem hq'
    simpa [sliceNode] using hns _ hmem


lemma sum_zipWith_neg_right (a b : Vec) :
    (List.zipWith (· * ·) a (b.map (fun x => -x))).sum =
      -(List.zipWith (· * ·) a b).sum := by
  induction a generalizing b with
  | nil => simp
  | cons x t ih =>
    cases b with
    | nil => simp
    | cons y u =>
      simp only [List.map_cons, List.zipWith_cons_cons, List.sum_cons, ih]
      ring

lemma sum_zipWith_neg_neg (v : Vec) :
    (List.zipWith (· * ·) (v.map (fun x => -x)) (v.map (fun x => -x))).sum =
      (List.zipWith (· * ·) v v).sum := by
  induction v with
  | nil => rfl
  | cons x t ih =>
    simp only [List.map_cons, List.zipWith_cons_cons, List.sum_cons, ih, neg_mul_neg]

lemma isUnitEig_neg {M : Mat} {lam : ℚ} {v : Vec} (h : IsUnitEig M lam v) :
    IsUnitEig M lam (v.map (fun x => -x)) := by
  obtain ⟨h1, h2⟩ := h
  constructor
  · have : M.map (fun row => (List.zipWith (· * ·) row (v.map (fun x => -x))).sum) =
        (M.map (fun row => (List.zipWith (· * ·) row v).sum)).map (fun x => -x) := by
      rw [List.map_map]
      exact List.map_congr_left (fun row _ => sum_zipWith_neg_right row v)
    rw [this, h1, List.map_map, List.map_map]
    exact List.map_congr_left (fun x _ => by simp [mul_neg])
  · rw [sum_zipWith_neg_neg]
    exact h2

lemma eigDecomp_orientStep {W : Mat} {uvs out : Mat × Vec × Mat}
    (h : orientStep uvs = .ok out) (he : EigDecomp W uvs) :
    out.2.1 = uvs.2.1 ∧ EigDecomp W out := by
  obtain ⟨hS, v, hdot, hflip, hkeep⟩ := orientStep_ok h
  obtain ⟨hchain, hv0, hv1⟩ := he
  by_cases hv : v < 0
  · obtain ⟨hU, -⟩ := hflip hv
    refine ⟨hS, by rw [hS]; exact hchain, ?_, ?_⟩
    · rw [hU, colv_negMat, hS]
      exact isUnitEig_neg hv0
    · rw [hU, colv_negMat, hS]
      exact isUnitEig_neg hv1
  · obtain ⟨hU, -⟩ := hkeep (not_lt.mp hv)
    exact ⟨hS, by rw [hS]; exact hchain, by rw [hU, hS]; exact hv0,
      by rw [hU, hS]; exact hv1⟩

/-! ### Claim C1 -/

/-- C1: Orientation invariant.  For every constructed bivariate sample
and for every node index `q` of every constructed bivariate functional
sample, the stored major-axis unit vector `U[:, 0]` satisfies
`dot(U[:, 0], [0, 1]) ≥ 0` after construction; and whenever the
underlying SVD routine returned a major axis with negative second
component, the stored `U` and `R` are the wholesale negations of the
returned `U` and `R`. -/
theorem c1_orientation_invariant
    (svd : Mat → Mat × Vec × Mat)
    (y0 : Mat) (d0 : BivariateDataset0D) (h0 : mkBivariateDataset0D svd y0 = .ok d0)
    (y1 : Arr3) (d1 : BivariateDataset1D) (h1 : mkBivariateDataset1D svd y1 = .ok d1)
    (q : ℕ) (hq : q < d1.Q) :
    ((∃ v, npDot d0.Maxis [0, 1] = .ok v ∧ 0 ≤ v) ∧
      (∀ v, npDot (colv (svd (npCov y0 true)).1 0) [0, 1] = .ok v → v < 0 →
        d0.U = negMat (svd (npCov y0 true)).1 ∧
        d0.R = negMat (svd (npCov y0 true)).2.2)) ∧
    ((∃ v, npDot (colv (d1.U.getD q []) 0) [0, 1] = .ok v ∧ 0 ≤ v) ∧
      (∀ v, npDot (colv (svd (npCov (sliceNode y1 q) true)).1 0) [0, 1] = .ok v → v < 0 →
        d1.U.getD q [] = negMat (svd (npCov (sliceNode y1 q) true)).1 ∧
        d1.R.getD q [] = negMat (svd (npCov (sliceNode y1 q) true)).2.2)) := by
  obtain ⟨-, -, -, horient⟩ := mk0_ok h0
  have hstep := mk1_node h1 hq
  refine ⟨⟨?_, ?_⟩, ?_, ?_⟩
  · exact orientStep_nonneg horient
  · intro v hdot hneg
    obtain ⟨-, v0, hdot0, hflip, -⟩ := orientStep_ok horient
    have hv : v0 = v := Except.ok.inj (hdot0.symm.trans hdot)
    have hneg0 : v0 < 0 := by rw [hv]; exact hneg
    exact hflip hneg0
  · exact orientStep_nonneg hstep
  · intro v hdot hneg
    obtain ⟨-, v0, hdot0, hflip, -⟩ := orientStep_ok hstep
    have hv : v0 = v := Except.ok.inj (hdot0.symm.trans hdot)
    have hneg0 : v0 < 0 := by rw [hv]; exact hneg
    exact hflip hneg0

/-- Witness for C1 at concrete data, with an SVD stand-in that returns a
negatively-oriented major axis, so the sign-flip branch really fires. -/
theorem c1_orientation_invariant_witness :
    (mkBivariateDataset0D svdN y2c = .ok d0n ∧
     mkBivariateDataset1D svdN y3c = .ok d1n ∧ 0 < d1n.Q) ∧
    (((∃ v, npDot d0n.Maxis [0, 1] = .ok v ∧ 0 ≤ v) ∧
      (∀ v, npDot (colv (svdN (npCov y2c true)).1 0) [0, 1] = .ok v → v < 0 →
        d0n.U = negMat (svdN (npCov y2c true)).1 ∧
        d0n.R = negMat (svdN (npCov y2c true)).2.2)) ∧
     ((∃ v, npDot (colv (d1n.U.getD 0 []) 0) [0, 1] = .ok v ∧ 0 ≤ v) ∧
      (∀ v, npDot (colv (svdN (npCov (sliceNode y3c 0) true)).1 0) [0, 1] = .ok v → v < 0 →
        d1n.U.getD 0 [] = negMat (svdN (npCov (sliceNode y3c 0) true)).1 ∧
        d1n.R.getD 0 [] = negMat (svdN (npCov (sliceNode y3c 0) true)).2.2))) := by
  have p0 : mkBivariateDataset0D svdN y2c = .ok d0n := by
    norm_num [mkBivariateDataset0D, orientStep, svdN, npDot, colv, negMat, y2c, d0n]
  have p1 : mkBivariateDataset1D svdN y3c = .ok d1n := by
    norm_num [mkBivariateDataset1D, initSvd1D, covList, sliceNode, npCov, covEntry, colMean,
      colv, orientStep, svdN, npDot, negMat, y3c, d1n, List.range_succ]
  have pq : 0 < d1n.Q := by norm_num [d1n]
  exact ⟨⟨p0, p1, pq⟩, c1_orientation_invariant svdN y2c d0n p0 y3c d1n p1 0 pq⟩

/-! ### Claim C2 -/

/-- C2: Shape rejection at construction.  Constructing a bivariate
sample from a 2-D array with 3 columns fails (the orientation check's
`np.dot` raises `ValueError` on the 3-element major axis), and
constructing a `UnivariateDataset1D` from a 1-D array fails
(`y.shape[1]` raises `IndexError`); in both cases construction returns
an error and no object is produced.  These are the errors the spec's
abstract `ShapeError` category denotes. -/
theorem c2_shape_rejection
    (svd : Mat → Mat × Vec × Mat) (y : Mat) (hw : (y.headD []).length = 3)
    (hdim : ((svd (npCov y true)).1).length = (npCov y true).length)
    (v : List ℚ) :
    mkBivariateDataset0D svd y = .error .valueError ∧
    mkUnivariateDataset1D (.arr (v.map Arr.scalar)) = .error .indexError := by
  constructor
  · have hU : ((svd (npCov y true)).1).length = 3 := by rw [hdim, npCov_length, hw]
    have hdot : npDot (colv (svd (npCov y true)).1 0) [0, 1] = .error .valueError := by
      simp [npDot, colv_length, hU]
    have horient : orientStep (svd (npCov y true)) = .error .valueError := by
      unfold orientStep
      rw [hdot]
    unfold mkBivariateDataset0D
    rw [horient]
  · cases v with
    | nil => rfl
    | cons a t => rfl

/-- Witness for C2: a 2-row, 3-column bivariate input and a 1-D
univariate input, with a dimension-respecting SVD stand-in. -/
theorem c2_shape_rejection_witness :
    ((y33.headD []).length = 3 ∧
     ((svdSame (npCov y33 true)).1).length = (npCov y33 true).length) ∧
    (mkBivariateDataset0D svdSame y33 = .error .valueError ∧
     mkUnivariateDataset1D (.arr ([(7 : ℚ), 8].map Arr.scalar)) = .error .indexError) :=
  ⟨⟨rfl, rfl⟩, c2_shape_rejection svdSame y33 rfl rfl [7, 8]⟩

/-! ### Claim C3 -/

/-- C3: Frame extraction consistency.  For every bivariate functional
sample `d` and valid node index `q`, the covariance of the frame
returned by `get_frame` equals entry `q` of `d.get_cov` — exactly, since
the frame re-derives its covariance from the identical raw data slice. -/
theorem c3_frame_cov_consistency
    (svd : Mat → Mat × Vec × Mat) (d : BivariateDataset1D) (q : ℕ) (hq : q < d.Q)
    (fr : BivariateDataset0D)
    (h : BivariateDataset1D.get_frame svd d (q : ℤ) = .ok fr) :
    fr.get_cov = d.get_cov.getD q [] := by
  have hni : npIndex d.Q (q : ℤ) = .ok q := npIndex_natCast hq
  unfold BivariateDataset1D.get_frame at h
  rw [hni] at h
  obtain ⟨hy, -, -, -⟩ := mk0_ok h
  show npCov fr.y true = _
  rw [hy]
  unfold BivariateDataset1D.get_cov covList
  rw [getD_range_map _ hq]

/-- Witness for C3 at the concrete two-node functional sample. -/
theorem c3_frame_cov_consistency_witness :
    (0 < d1c.Q ∧ BivariateDataset1D.get_frame svdC d1c ((0 : ℕ) : ℤ) = .ok d0c) ∧
    d0c.get_cov = d1c.get_cov.getD 0 [] := by
  have hq : 0 < d1c.Q := by norm_num [d1c]
  have h : BivariateDataset1D.get_frame svdC d1c ((0 : ℕ) : ℤ) = .ok d0c := by
    norm_num [BivariateDataset1D.get_frame, npIndex, d1c, y3c, sliceNode,
      mkBivariateDataset0D, orientStep, svdC, npDot, colv, d0c, y2c]
  exact ⟨⟨hq, h⟩, c3_frame_cov_consistency svdC d1c 0 hq d0c h⟩

/-! ### Claim C4 -/

/-- C4: Estimator convention.  The standard-deviation query squares to
the sum of squared deviations divided by `N − 1` (unbiased), while the
diagonal of the default covariance is the same sum divided by `N`
(biased); for data with any spread the two normalisations genuinely
differ. -/
theorem c4_estimator_conventions (y : Mat) (k : ℕ)
    (hJ : 2 ≤ y.length) (hk : k < (y.headD []).length) :
    ((y.length : ℝ) - 1) * npStdCol y k ^ 2 = ((ssdCol y k : ℚ) : ℝ) ∧
    (y.length : ℚ) * (((npCov y true).getD k []).getD k 0) = ssdCol y k ∧
    (ssdCol y k ≠ 0 → ((npCov y true).getD k []).getD k 0 ≠ varDdof1 y k) := by
  have hssd : 0 ≤ ssdCol y k := by
    apply List.sum_nonneg
    intro x hx
    obtain ⟨w, -, rfl⟩ := List.mem_map.mp hx
    positivity
  have hJQ : (2 : ℚ) ≤ (y.length : ℚ) := by exact_mod_cast hJ
  have hJne : (y.length : ℚ) ≠ 0 := by
    have : (0 : ℚ) < (y.length : ℚ) := by linarith
    exact this.ne'
  have hden : ((y.length : ℚ) - 1) ≠ 0 := by
    have : (0 : ℚ) < (y.length : ℚ) - 1 := by linarith
    exact this.ne'
  have hcov : ((npCov y true).getD k []).getD k 0 = covEntry y k k (y.length : ℚ) := by
    unfold npCov
    rw [getD_range_map _ hk, getD_range_map _ hk]
    simp
  have hsum : ssdCol y k =
      (y.map (fun r => (r.getD k 0 - colMean y k) * (r.getD k 0 - colMean y k))).sum := by
    unfold ssdCol colv
    rw [List.map_map]
    apply congrArg List.sum
    refine List.map_congr_left (fun r _ => ?_)
    simp only [Function.comp_apply]
    ring
  have hcov2 : (y.length : ℚ) * covEntry y k k (y.length : ℚ) = ssdCol y k := by
    unfold covEntry
    rw [hsum, mul_comm, div_mul_cancel₀ _ hJne]
  refine ⟨?_, ?_, ?_⟩
  · unfold npStdCol
    have hvar : (0 : ℝ) ≤ ((varDdof1 y k : ℚ) : ℝ) := by
      have : (0 : ℚ) ≤ varDdof1 y k := div_nonneg hssd (by linarith)
      exact_mod_cast this
    rw [Real.sq_sqrt hvar]
    have hcast : ((varDdof1 y k : ℚ) : ℝ) =
        ((ssdCol y k : ℚ) : ℝ) / ((y.length : ℝ) - 1) := by
      unfold varDdof1
      push_cast
      ring
    rw [hcast, mul_comm, div_mul_cancel₀]
    have h2 : (2 : ℝ) ≤ (y.length : ℝ) := by exact_mod_cast hJ
    have : (0 : ℝ) < (y.length : ℝ) - 1 := by linarith
    exact this.ne'
  · rw [hcov, hcov2]
  · intro hS hcontra
    rw [hcov] at hcontra
    have hc : covEntry y k k (y.length : ℚ) = ssdCol y k / (y.length : ℚ) := by
      rw [eq_div_iff hJne]
      linear_combination hcov2
    rw [hc] at hcontra
    unfold varDdof1 at hcontra
    have hcross := (div_eq_div_iff hJne hden).mp hcontra
    have hzero : ssdCol y k = 0 := by linear_combination -hcross
    exact hS hzero

/-- Witness for C4 at a concrete two-observation bivariate sample. -/
theorem c4_estimator_conventions_witness :
    (2 ≤ y2c.length ∧ 0 < (y2c.headD []).length) ∧
    (((y2c.length : ℝ) - 1) * npStdCol y2c 0 ^ 2 = ((ssdCol y2c 0 : ℚ) : ℝ) ∧
     (y2c.length : ℚ) * (((npCov y2c true).getD 0 []).getD 0 0) = ssdCol y2c 0 ∧
     (ssdCol y2c 0 ≠ 0 → ((npCov y2c true).getD 0 []).getD 0 0 ≠ varDdof1 y2c 0)) :=
  ⟨⟨by decide, by decide⟩, c4_estimator_conventions y2c 0 (by decide) (by decide)⟩

/-! ### Claim C5 -/

/-- C5: Determinism.  Constructing a sample twice from the same backing
array (with the same decomposition routine) produces objects on which
every query — mean, std, range, cov, major/minor axis, and frame
extraction — returns identical results; queries are pure functions of
the state cached at construction. -/
theorem c5_determinism
    (svd : Mat → Mat × Vec × Mat)
    (y0 : Mat) (d d' : BivariateDataset0D)
    (h : mkBivariateDataset0D svd y0 = .ok d) (h' : mkBivariateDataset0D svd y0 = .ok d')
    (y1 : Arr3) (e e' : BivariateDataset1D)
    (g : mkBivariateDataset1D svd y1 = .ok e) (g' : mkBivariateDataset1D svd y1 = .ok e') :
    (d.mean = d'.mean ∧ d.std = d'.std ∧ d.range = d'.range ∧ d.get_cov = d'.get_cov ∧
     d.Maxis = d'.Maxis ∧ d.maxis = d'.maxis) ∧
    (e.mean = e'.mean ∧ e.std = e'.std ∧ e.range = e'.range ∧ e.get_cov = e'.get_cov ∧
     e.Maxis = e'.Maxis ∧ e.maxis = e'.maxis ∧
     ∀ frame, BivariateDataset1D.get_frame svd e frame =
       BivariateDataset1D.get_frame svd e' frame) := by
  have hd : d = d' := Except.ok.inj (h.symm.trans h')
  have he : e = e' := Except.ok.inj (g.symm.trans g')
  subst hd
  subst he
  exact ⟨⟨rfl, rfl, rfl, rfl, rfl, rfl⟩, rfl, rfl, rfl, rfl, rfl, rfl, fun _ => rfl⟩

/-- Witness for C5: two constructions from the same concrete arrays. -/
theorem c5_determinism_witness :
    (mkBivariateDataset0D svdC y2c = .ok d0c ∧ mkBivariateDataset1D svdC y3c = .ok d1c) ∧
    ((d0c.mean = d0c.mean ∧ d0c.std = d0c.std ∧ d0c.range = d0c.range ∧
      d0c.get_cov = d0c.get_cov ∧ d0c.Maxis = d0c.Maxis ∧ d0c.maxis = d0c.maxis) ∧
     (d1c.mean = d1c.mean ∧ d1c.std = d1c.std ∧ d1c.range = d1c.range ∧
      d1c.get_cov = d1c.get_cov ∧ d1c.Maxis = d1c.Maxis ∧ d1c.maxis = d1c.maxis ∧
      ∀ frame, BivariateDataset1D.get_frame svdC d1c frame =
        BivariateDataset1D.get_frame svdC d1c frame)) := by
  have p0 : mkBivariateDataset0D svdC y2c = .ok d0c := by
    norm_num [mkBivariateDataset0D, orientStep, svdC, npDot, colv, y2c, d0c]
  have p1 : mkBivariateDataset1D svdC y3c = .ok d1c := by
    norm_num [mkBivariateDataset1D, initSvd1D, covList, sliceNode, npCov, covEntry, colMean,
      colv, orientStep, svdC, npDot, y3c, d1c, id2, List.range_succ]
  exact ⟨⟨p0, p1⟩, c5_determinism svdC y2c d0c d0c p0 p0 y3c d1c d1c p1 p1⟩

/-! ### Claim C6 (corrected) -/

/-- C6 counterexample: the claim "get_frame raises IndexError iff the
index is outside `[0, nodeCount)`, in particular every negative index is
rejected" is false: on a two-node sample, `get_frame(-1)` succeeds, and
returns the same frame as `get_frame(1)` (numpy wraps negative
indices). -/
theorem c6_counterexample :
    (-1 : ℤ) < 0 ∧ mkBivariateDataset1D svdC y3c = .ok d1c ∧
    (BivariateDataset1D.get_frame svdC d1c (-1)).isOk = true ∧
    BivariateDataset1D.get_frame svdC d1c (-1) =
      BivariateDataset1D.get_frame svdC d1c 1 := by
  refine ⟨by norm_num, ?_, ?_, ?_⟩
  · norm_num [mkBivariateDataset1D, initSvd1D, covList, sliceNode, npCov, covEntry, colMean,
      colv, orientStep, svdC, npDot, y3c, d1c, id2, List.range_succ]
  · norm_num [BivariateDataset1D.get_frame, npIndex, d1c, y3c, sliceNode,
      mkBivariateDataset0D, orientStep, svdC, npDot, colv, Except.isOk, Except.toBool]
  · norm_num [BivariateDataset1D.get_frame, npIndex, d1c]

/-- C6 (amended): for a constructed bivariate functional sample over
well-formed data, `get_frame(frame)` raises `IndexError` iff `frame` is
outside `[-nodeCount, nodeCount)`; a negative `frame` in
`[-nodeCount, -1]` is accepted and addresses node `nodeCount + frame`. -/
theorem c6_frame_index_amended
    (svd : Mat → Mat × Vec × Mat)
    (hdim : ∀ m, m.length = 2 → ((svd m).1).length = 2)
    (y : Arr3) (d : BivariateDataset1D) (h : mkBivariateDataset1D svd y = .ok d)
    (hwf : WF3 y) (frame : ℤ) :
    ((BivariateDataset1D.get_frame svd d frame).isOk = true ↔
      (-(d.Q : ℤ) ≤ frame ∧ frame < (d.Q : ℤ))) ∧
    (-(d.Q : ℤ) ≤ frame → frame < 0 →
      BivariateDataset1D.get_frame svd d frame =
        BivariateDataset1D.get_frame svd d (frame + (d.Q : ℤ))) := by
  obtain ⟨hy, -, hQ, -⟩ := mk1_ok h
  constructor
  · cases hni : npIndex d.Q frame with
    | error e =>
      have h1 : BivariateDataset1D.get_frame svd d frame = .error e := by
        unfold BivariateDataset1D.get_frame
        rw [hni]
      rw [h1]
      constructor
      · intro hc
        exact absurd hc (by simp [Except.isOk, Except.toBool])
      · intro hrange
        have hok := (npIndex_isOk d.Q frame).mpr hrange
        rw [hni] at hok
        exact absurd hok (by simp [Except.isOk, Except.toBool])
    | ok q =>
      have hqlt : q < d.Q := npIndex_ok_lt hni
      have h1 : BivariateDataset1D.get_frame svd d frame =
          mkBivariateDataset0D svd (sliceNode d.y q) := by
        unfold BivariateDataset1D.get_frame
        rw [hni]
      have hwidth : ((sliceNode d.y q).headD []).length = 2 := by
        rw [hy]
        exact sliceNode_head_len hwf (by rw [← hQ]; exact hqlt)
      have hcl : (npCov (sliceNode d.y q) true).length = 2 := by
        rw [npCov_length, hwidth]
      have hok : (mkBivariateDataset0D svd (sliceNode d.y q)).isOk = true := by
        rw [mk0_isOk]
        exact (orientStep_isOk _).mpr (hdim _ hcl)
      rw [h1, hok]
      constructor
      · intro _
        refine (npIndex_isOk d.Q frame).mp ?_
        rw [hni]
        rfl
      · intro _
        rfl
  · intro hn1 hn2
    unfold BivariateDataset1D.get_frame
    rw [npIndex_neg_wrap hn1 hn2]

/-- Witness for C6 (amended) at the concrete two-node sample and the
negative index `-1`. -/
theorem c6_frame_index_amended_witness :
    ((∀ m : Mat, m.length = 2 → ((svdC m).1).length = 2) ∧
     mkBivariateDataset1D svdC y3c = .ok d1c ∧ WF3 y3c) ∧
    (((BivariateDataset1D.get_frame svdC d1c (-1)).isOk = true ↔
       (-(d1c.Q : ℤ) ≤ -1 ∧ (-1 : ℤ) < (d1c.Q : ℤ))) ∧
     (-(d1c.Q : ℤ) ≤ -1 → (-1 : ℤ) < 0 →
       BivariateDataset1D.get_frame svdC d1c (-1) =
         BivariateDataset1D.get_frame svdC d1c (-1 + (d1c.Q : ℤ)))) := by
  have hdim : ∀ m : Mat, m.length = 2 → ((svdC m).1).length = 2 := fun _ _ => rfl
  have p1 : mkBivariateDataset1D svdC y3c = .ok d1c := by
    norm_num [mkBivariateDataset1D, initSvd1D, covList, sliceNode, npCov, covEntry, colMean,
      colv, orientStep, svdC, npDot, y3c, d1c, id2, List.range_succ]
  have hwf : WF3 y3c := by decide
  exact ⟨⟨hdim, p1, hwf⟩, c6_frame_index_amended svdC hdim y3c d1c p1 hwf (-1)⟩

/-! ### Claim C7 (corrected) -/

/-- C7 counterexample: the claim that the node-coordinate generator
"fails with DimensionMismatchError when the supplied coordinates' length
differs from nodeCount" is false: `_getx` performs no length check and
echoes a 2-element coordinate vector unchanged for a 3-node sample. -/
theorem c7_counterexample :
    getx 3 (some [5, 7]) = [5, 7] ∧ ([(5 : ℚ), 7] : Vec).length ≠ 3 :=
  ⟨rfl, by decide⟩

/-- C7 (amended): the node-coordinate generator returns `0..Q-1` when
the caller supplies no coordinates and echoes caller-supplied
coordinates unchanged; it performs no length validation, so a mismatch
is not detected by the generator. -/
theorem c7_getx_amended (Q : ℕ) (x : Vec) :
    getx Q none = npArange Q ∧ getx Q (some x) = x :=
  ⟨rfl, rfl⟩

/-! ### Claim C8 -/

/-- C8: Descending singular values.  `np.linalg.svd` is external; for a
symmetric PSD input it returns a triple whose `s` is descending and whose
`U` columns are unit eigenvectors (the `EigDecomp` hypothesis).  The
construction stores exactly the returned singular values, and the stored
`(U, s, R)` — after the sign correction — is still such a decomposition:
`s` descending, `U` columns unit eigenvectors of the covariance, major
axis first.  This holds for the bivariate sample and at every node of
the bivariate functional sample. -/
theorem c8_svd_descending_eigvecs
    (svd : Mat → Mat × Vec × Mat)
    (y0 : Mat) (d0 : BivariateDataset0D) (h0 : mkBivariateDataset0D svd y0 = .ok d0)
    (he0 : EigDecomp (npCov y0 true) (svd (npCov y0 true)))
    (y1 : Arr3) (d1 : BivariateDataset1D) (h1 : mkBivariateDataset1D svd y1 = .ok d1)
    (q : ℕ) (hq : q < d1.Q)
    (he1 : EigDecomp (npCov (sliceNode y1 q) true) (svd (npCov (sliceNode y1 q) true))) :
    (d0.s = (svd (npCov y0 true)).2.1 ∧ EigDecomp (npCov y0 true) (d0.U, d0.s, d0.R)) ∧
    (d1.s.getD q [] = (svd (npCov (sliceNode y1 q) true)).2.1 ∧
     EigDecomp (npCov (sliceNode y1 q) true)
       (d1.U.getD q [], d1.s.getD q [], d1.R.getD q [])) := by
  obtain ⟨-, -, -, horient⟩ := mk0_ok h0
  have hstep := mk1_node h1 hq
  obtain ⟨hs0, hed0⟩ := eigDecomp_orientStep horient he0
  obtain ⟨hs1, hed1⟩ := eigDecomp_orientStep hstep he1
  exact ⟨⟨hs0, hed0⟩, hs1, hed1⟩

/-- Witness for C8 with an SVD stand-in that returns genuine descending
eigendecompositions for the two concrete covariance matrices involved
(`[[1,0],[0,0]]` and `[[0,0],[0,4]]`). -/
theorem c8_svd_descending_eigvecs_witness :
    (mkBivariateDataset0D svdE y2c = .ok d0c ∧
     EigDecomp (npCov y2c true) (svdE (npCov y2c true)) ∧
     mkBivariateDataset1D svdE y3c = .ok d1e ∧ 1 < d1e.Q ∧
     EigDecomp (npCov (sliceNode y3c 1) true) (svdE (npCov (sliceNode y3c 1) true))) ∧
    ((d0c.s = (svdE (npCov y2c true)).2.1 ∧
      EigDecomp (npCov y2c true) (d0c.U, d0c.s, d0c.R)) ∧
     (d1e.s.getD 1 [] = (svdE (npCov (sliceNode y3c 1) true)).2.1 ∧
      EigDecomp (npCov (sliceNode y3c 1) true)
        (d1e.U.getD 1 [], d1e.s.getD 1 [], d1e.R.getD 1 []))) := by
  have p0 : mkBivariateDataset0D svdE y2c = .ok d0c := by
    norm_num [mkBivariateDataset0D, orientStep, svdE, npDot, colv, npCov, covEntry,
      colMean, y2c, d0c, List.range_succ]
  have he0 : EigDecomp (npCov y2c true) (svdE (npCov y2c true)) := by
    norm_num [EigDecomp, IsUnitEig, npCov, covEntry, colMean, colv, svdE, y2c,
      List.range_succ, List.chain'_cons, List.chain'_singleton]
  have p1 : mkBivariateDataset1D svdE y3c = .ok d1e := by
    norm_num [mkBivariateDataset1D, initSvd1D, covList, sliceNode, npCov, covEntry,
      colMean, colv, orientStep, svdE, npDot, y3c, d1e, id2, List.range_succ]
  have hq : 1 < d1e.Q := by norm_num [d1e]
  have he1 : EigDecomp (npCov (sliceNode y3c 1) true)
      (svdE (npCov (sliceNode y3c 1) true)) := by
    norm_num [EigDecomp, IsUnitEig, npCov, covEntry, colMean, colv, sliceNode, svdE, y3c,
      List.range_succ, List.chain'_cons, List.chain'_singleton]
  exact ⟨⟨p0, he0, p1, hq, he1⟩,
    c8_svd_descending_eigvecs svdE y2c d0c p0 he0 y3c d1e p1 1 hq he1⟩

/-! ### Claim C9 -/

/-- C9: Defensive copy and no query mutation.  In the store model,
`toarray` allocates a fresh cell (a different address than the backing
cell) holding the same contents; mutating the returned cell leaves the
backing array — and derived statistics such as the covariance — exactly
as before; the query transactions return the store unchanged. -/
theorem c9_defensive_copy (st : Mem.Store) (i : ℕ) (h : i < st.length) (m : Mat) :
    (Mem.toarray st i).2 ≠ i ∧
    Mem.readArr (Mem.toarray st i).1 (Mem.toarray st i).2 = Mem.readArr st i ∧
    Mem.readArr (Mem.writeArr (Mem.toarray st i).1 (Mem.toarray st i).2 m) i =
      Mem.readArr st i ∧
    (Mem.queryCov (Mem.writeArr (Mem.toarray st i).1 (Mem.toarray st i).2 m) i).2 =
      (Mem.queryCov st i).2 ∧
    (Mem.queryCov st i).1 = st ∧ (Mem.queryMean st i).1 = st := by
  have hne : st.length ≠ i := by omega
  have hread : Mem.readArr (st ++ [Mem.readArr st i]) st.length = Mem.readArr st i := by
    unfold Mem.readArr
    rw [List.getD_eq_getElem?_getD, List.getElem?_concat_length]
    rfl
  have hwrite : Mem.readArr (Mem.writeArr (st ++ [Mem.readArr st i]) st.length m) i =
      Mem.readArr st i := by
    unfold Mem.readArr Mem.writeArr
    rw [List.getD_eq_getElem?_getD, List.getElem?_set_ne hne, List.getElem?_append,
      if_pos h, ← List.getD_eq_getElem?_getD]
  exact ⟨hne, hread, hwrite, congrArg (fun a => npCov a true) hwrite, rfl, rfl⟩

/-- Witness for C9 on a one-cell store holding the concrete bivariate
array. -/
theorem c9_defensive_copy_witness :
    0 < ([y2c] : Mem.Store).length ∧
    ((Mem.toarray [y2c] 0).2 ≠ 0 ∧
     Mem.readArr (Mem.toarray [y2c] 0).1 (Mem.toarray [y2c] 0).2 = Mem.readArr [y2c] 0 ∧
     Mem.readArr (Mem.writeArr (Mem.toarray [y2c] 0).1 (Mem.toarray [y2c] 0).2 []) 0 =
       Mem.readArr [y2c] 0 ∧
     (Mem.queryCov (Mem.writeArr (Mem.toarray [y2c] 0).1 (Mem.toarray [y2c] 0).2 []) 0).2 =
       (Mem.queryCov [y2c] 0).2 ∧
     (Mem.queryCov [y2c] 0).1 = [y2c] ∧ (Mem.queryMean [y2c] 0).1 = [y2c]) :=
  ⟨by decide, c9_defensive_copy [y2c] 0 (by decide) []⟩

/-! ### Claim C10 -/

/-- C10: the `ncomponents` property returns the number of observations
`J` (the source's `self.J`), equal to `nobservations` and `samplesize`,
not the component count `I`; in particular any bivariate sample with an
observation count other than 2 reports `ncomponents ≠ 2`. -/
theorem c10_ncomponents
    (svd : Mat → Mat × Vec × Mat)
    (y0 : Mat) (d0 : BivariateDataset0D) (h0 : mkBivariateDataset0D svd y0 = .ok d0)
    (y1 : Arr3) (d1 : BivariateDataset1D) (h1 : mkBivariateDataset1D svd y1 = .ok d1) :
    (d0.ncomponents = d0.J ∧ d0.ncomponents = d0.nobservations ∧
     d0.ncomponents = d0.samplesize ∧ d0.ncomponents = y0.length ∧
     (y0.length ≠ 2 → d0.ncomponents ≠ 2)) ∧
    (d1.ncomponents = d1.J ∧ d1.ncomponents = d1.nobservations ∧
     d1.ncomponents = d1.samplesize ∧ d1.ncomponents = y1.length ∧
     (y1.length ≠ 2 → d1.ncomponents ≠ 2)) := by
  obtain ⟨-, hJ0, -, -⟩ := mk0_ok h0
  obtain ⟨-, hJ1, -, -⟩ := mk1_ok h1
  refine ⟨⟨rfl, rfl, rfl, hJ0, fun hne hcon => hne ?_⟩,
    ⟨rfl, rfl, rfl, hJ1, fun hne hcon => hne ?_⟩⟩
  · rw [← hJ0]
    exact hcon
  · rw [← hJ1]
    exact hcon

/-- Witness for C10 on a three-observation bivariate sample (where
`ncomponents` is 3, not the component count 2). -/
theorem c10_ncomponents_witness :
    (mkBivariateDataset0D svdC y0w = .ok d0w ∧ mkBivariateDataset1D svdC y3c = .ok d1c) ∧
    ((d0w.ncomponents = d0w.J ∧ d0w.ncomponents = d0w.nobservations ∧
      d0w.ncomponents = d0w.samplesize ∧ d0w.ncomponents = y0w.length ∧
      (y0w.length ≠ 2 → d0w.ncomponents ≠ 2)) ∧
     (d1c.ncomponents = d1c.J ∧ d1c.ncomponents = d1c.nobservations ∧
      d1c.ncomponents = d1c.samplesize ∧ d1c.ncomponents = y3c.length ∧
      (y3c.length ≠ 2 → d1c.ncomponents ≠ 2))) := by
  have p0 : mkBivariateDataset0D svdC y0w = .ok d0w := by
    norm_num [mkBivariateDataset0D, orientStep, svdC, npDot, colv, y0w, d0w]
  have p1 : mkBivariateDataset1D svdC y3c = .ok d1c := by
    norm_num [mkBivariateDataset1D, initSvd1D, covList, sliceNode, npCov, covEntry,
      colMean, colv, orientStep, svdC, npDot, y3c, d1c, id2, List.range_succ]
  exact ⟨⟨p0, p1⟩, c10_ncomponents svdC y0w d0w p0 y3c d1c p1⟩

end Ci1d
